import Mathlib

/-!
Verification of the window-computation and event-aggregation core of the
timetracker repository (two Python scripts: `simple_color_hours.py` and
`weekly_calendar_color_hours.py`), via a shallow embedding.

Modelling conventions:
* A timezone-aware local datetime is a `LocalDT`: an integer day number
  (`day`, counting civil days in the configured timezone, with day 0 chosen
  to be a Monday so that Python's `date.weekday()` is `day % 7`,
  Monday = 0 … Sunday = 6) plus the seconds elapsed since that day's local
  midnight (`sec`).  `now.replace(hour=0, minute=0, second=0, microsecond=0)`
  is then just `now.day`, and a midnight datetime is represented by its day
  number.  `timedelta(days = k)` arithmetic on midnights is integer
  arithmetic on day numbers.
* Instants on the event timeline (event starts/ends, window bounds used for
  clipping) are modelled as integers (seconds on a common axis).
* Python `None` becomes `Option.none`; a raised-and-not-caught exception
  becomes `Except.error ()`.
* Google colour tables are association lists `List (String × Option String)`
  (`dict.get` may give `None` values, since `v.get("background")` can be
  absent).
-/

namespace Timetracker

/-- A timezone-aware local datetime: civil day number (day 0 is a Monday)
and seconds since that day's local midnight. -/
structure LocalDT where
  day : Int
  sec : Nat
  deriving DecidableEq, Repr

/-- Embeds `simple_color_hours.get_last_week_window`.  `now` is
`datetime.now(tz)`; `today = now.replace(hour=0, ...)` is `now.day`;
`today.weekday()` is `now.day % 7` (Monday = 0 … Sunday = 6).  Returns the
pair of midnights `(start, end)` as day numbers. -/
def get_last_week_window (now : LocalDT) : Int × Int :=
  let today : Int := now.day
  let days_since_sunday : Int :=
    if today % 7 = 6 then 0 else (today % 7 + 1) % 7
  let last_sunday : Int :=
    if today % 7 = 6 then today - 7 else today - days_since_sunday
  (last_sunday, last_sunday + 7)

/-- Embeds `weekly_calendar_color_hours.last_sun_to_sat`:
`days_since_last_sun = (today.weekday() + 1) % 7`,
`end = today - days_since_last_sun`, `start = end - 7`. -/
def last_sun_to_sat (now : LocalDT) : Int × Int :=
  let today : Int := now.day
  let days_since_last_sun : Int := (today % 7 + 1) % 7
  let e : Int := today - days_since_last_sun
  (e - 7, e)

/-- Modelled from the spec (§4.1 formal formula), for comparison with the
code: `daysSinceSunday = (weekday + 1) mod 7`; if it is `0` then
`start = today - 7` else `start = today - daysSinceSunday`; in both cases
`end = start + 7`. -/
def specWeekWindow (now : LocalDT) : Int × Int :=
  let today : Int := now.day
  let dss : Int := (today % 7 + 1) % 7
  let start : Int := if dss = 0 then today - 7 else today - dss
  (start, start + 7)

/-- Embeds `simple_color_hours.clip`: `s, e = max(a, lo), min(b, hi)`;
`None if s >= e else (s, e)`. -/
def clip (a b lo hi : Int) : Option (Int × Int) :=
  let s := max a lo
  let e := min b hi
  if s ≥ e then none else some (s, e)

/-- Embeds `weekly_calendar_color_hours.clamp_interval`:
`s = max(start, clamp_start)`, `e = min(end, clamp_end)`,
`None if s >= e else (s, e)`. -/
def clamp_interval (start e clamp_start clamp_end : Int) : Option (Int × Int) :=
  let s := max start clamp_start
  let e' := min e clamp_end
  if s ≥ e' then none else some (s, e')

/-! ### Colour resolution (simple_color_hours.py lines 19–31, 107–125, 230–240) -/

/-- The fixed event-colour-id → label table `CUSTOM_COLOR_NAMES`. -/
def CUSTOM_COLOR_NAMES : List (String × String) :=
  [("1", "Class"), ("2", "Side-Hustle"), ("3", "Personal-Development"),
   ("4", "Faith"), ("5", "Network"), ("6", "Test"), ("7", "Money"),
   ("8", "Sleep"), ("9", "Exercise"), ("10", "Project"), ("11", "Meal")]

/-- First-match association-list lookup, modelling Python `dict` lookup
(the dicts in the scripts have pairwise-distinct keys, in insertion order). -/
def lookupA {α : Type} (tbl : List (String × α)) (k : String) : Option α :=
  match tbl with
  | [] => none
  | (k', v) :: rest => if k' = k then some v else lookupA rest k

/-- Python truthiness of an `Optional[str]`: `None` and `""` are falsy. -/
def pyTruthy : Option String → Bool
  | none => false
  | some s => s ≠ ""

/-- The whitespace characters stripped by Python `int(s, 16)`. -/
def isPySpace (c : Char) : Bool :=
  c = ' ' || c = '\t' || c = '\n' || c = '\r' || c = Char.ofNat 11 || c = Char.ofNat 12

/-- Value of one hexadecimal digit. -/
def hexDigitVal (c : Char) : Option Nat :=
  if '0' ≤ c ∧ c ≤ '9' then some (c.toNat - '0'.toNat)
  else if 'a' ≤ c ∧ c ≤ 'f' then some (c.toNat - 'a'.toNat + 10)
  else if 'A' ≤ c ∧ c ≤ 'F' then some (c.toNat - 'A'.toNat + 10)
  else none

/-- Hex digits after the first one, allowing a single `_` between digits,
as Python `int(s, 16)` does.  `acc` is the value accumulated so far. -/
def parseHexCore : List Char → Nat → Option Nat
  | [], acc => some acc
  | c :: rest, acc =>
    match hexDigitVal c with
    | some d => parseHexCore rest (acc * 16 + d)
    | none =>
      if c = '_' then
        match rest with
        | [] => none
        | c' :: rest' =>
          match hexDigitVal c' with
          | some d => parseHexCore rest' (acc * 16 * 16 + d * 16)
          | none => none
      else none

/-- Sign-free part of Python `int(s, 16)`: optional `0x`/`0X` prefix
(with an optional single `_` right after it), then at least one hex digit
with single `_` separators allowed between digits. -/
def pyIntHexBody (cs : List Char) : Option Nat :=
  let cs' := match cs with
    | '0' :: c :: r =>
      if c = 'x' || c = 'X' then (match r with | '_' :: r' => r' | _ => r)
      else '0' :: c :: r
    | r => r
  match cs' with
  | [] => none
  | c :: rest =>
    match hexDigitVal c with
    | some d => parseHexCore rest d
    | none => none

/-- Python `int(s, 16)`: strip whitespace, optional sign, optional `0x`
prefix, hex digits with `_` separators; `none` models `ValueError`. -/
def pyIntHex (s : String) : Option Int :=
  let cs := ((s.toList.dropWhile isPySpace).reverse.dropWhile isPySpace).reverse
  match cs with
  | '+' :: r => (pyIntHexBody r).map (fun n => (n : Int))
  | '-' :: r => (pyIntHexBody r).map (fun n => -(n : Int))
  | r => (pyIntHexBody r).map (fun n => (n : Int))

/-- Python slice `hx[i:i+2]` on the character list of a string. -/
def pySlice2 (cs : List Char) (i : Nat) : String :=
  String.mk ((cs.drop i).take 2)

/-- Embeds `hex_to_rgb`: strip leading `#`s, parse the three slices
`hx[0:2]`, `hx[2:4]`, `hx[4:6]` as base-16 ints; `none` models a raised
exception from any of the three `int` calls. -/
def hex_to_rgb (hx : String) : Option (Int × Int × Int) :=
  let cs := hx.toList.dropWhile (fun c => c = '#')
  match pyIntHex (pySlice2 cs 0), pyIntHex (pySlice2 cs 2), pyIntHex (pySlice2 cs 4) with
  | some r, some g, some b => some (r, g, b)
  | _, _, _ => none

/-- The scan loop of `nearest_event_color_id`: entries with falsy hex are
skipped; a table entry whose hex fails to parse raises an uncaught
exception (`Except.error`, since only the first `hex_to_rgb` call sits
inside the `try`); strictly smaller squared distance replaces the best. -/
def nearestLoop (r g b : Int) (best : Option String) (bestD : Int) :
    List (String × Option String) → Except Unit (Option String)
  | [] => Except.ok best
  | (cid, ehx) :: rest =>
    if pyTruthy ehx = false then nearestLoop r g b best bestD rest
    else
      match hex_to_rgb (ehx.getD "") with
      | none => Except.error ()
      | some (er, eg, eb) =>
        let d := (r - er) ^ 2 + (g - eg) ^ 2 + (b - eb) ^ 2
        if d < bestD then nearestLoop r g b (some cid) d rest
        else nearestLoop r g b best bestD rest

/-- Embeds `nearest_event_color_id`: a parse failure on `hex_color` itself
is caught by the `try`/`except` and yields `None`; the loop then scans the
event-colour table starting from `best_id = None`, `best_d = 10 ** 9`. -/
def nearest_event_color_id (hex_color : String)
    (event_hex_map : List (String × Option String)) : Except Unit (Option String) :=
  match hex_to_rgb hex_color with
  | none => Except.ok none
  | some (r, g, b) => nearestLoop r g b none (10 ^ 9) event_hex_map

/-- Embeds the label decision of `simple_color_hours.main` (lines 230–240):
explicit colour id that is truthy and present in `CUSTOM_COLOR_NAMES` wins;
otherwise a truthy calendar default hex goes through
`nearest_event_color_id` and `CUSTOM_COLOR_NAMES.get(nearest_id,
"Miscellaneous")`; otherwise "Miscellaneous". -/
def resolve_label (cid : Option String) (cal_default_hex : Option String)
    (event_colors : List (String × Option String)) : Except Unit String :=
  if pyTruthy cid && (lookupA CUSTOM_COLOR_NAMES (cid.getD "")).isSome then
    Except.ok ((lookupA CUSTOM_COLOR_NAMES (cid.getD "")).getD "Miscellaneous")
  else if pyTruthy cal_default_hex then
    match nearest_event_color_id (cal_default_hex.getD "") event_colors with
    | Except.error u => Except.error u
    | Except.ok nearest_id =>
      Except.ok (match nearest_id with
        | some nid => (lookupA CUSTOM_COLOR_NAMES nid).getD "Miscellaneous"
        | none => "Miscellaneous")
  else
    Except.ok "Miscellaneous"

/-! ### Event parsing (parse_event_times in both scripts)

The ISO datetime/date parsing itself (`datetime.fromisoformat(...).astimezone(tz)`
and `datetime.combine(date.fromisoformat(...), time(0,0), tz)`) is the
standard library's, not this repository's; the embedding takes it as
function parameters `parseDT`/`parseD` from strings to instants and models
only the scripts' own branch logic. -/

/-- The `start`/`end` sub-object of a raw API event: which of the
`dateTime`/`date` keys are present, and their string values. -/
structure RawTime where
  dateTime : Option String
  date : Option String
  deriving DecidableEq, Repr

/-- A raw API event as the scripts read it: `evt.get("start", {})`,
`evt.get("end", {})`, `evt.get("colorId")`. -/
structure RawEvent where
  start : RawTime
  end_ : RawTime
  colorId : Option String
  deriving DecidableEq, Repr

/-- Embeds `simple_color_hours.parse_event_times`: the `dateTime` branch,
else unconditionally `s["date"]` / `e["date"]` — a missing key raises
`KeyError` (`Except.error`), there is no fallback. -/
def parse_event_times_simple (parseDT parseD : String → Int) (evt : RawEvent) :
    Except Unit (Int × Int × Bool) :=
  match evt.start.dateTime with
  | some sdt =>
    match evt.end_.dateTime with
    | some edt => Except.ok (parseDT sdt, parseDT edt, false)
    | none => Except.error ()
  | none =>
    match evt.start.date, evt.end_.date with
    | some sd, some ed => Except.ok (parseD sd, parseD ed, true)
    | _, _ => Except.error ()

/-- Embeds `weekly_calendar_color_hours.parse_event_times`: `dateTime`
branch, `elif "date" in start` branch, and the final fallback returning the
zero-length non-all-day interval `(now, now, False)`. -/
def parse_event_times_weekly (parseDT parseD : String → Int) (now : Int) (evt : RawEvent) :
    Except Unit (Int × Int × Bool) :=
  match evt.start.dateTime with
  | some sdt =>
    match evt.end_.dateTime with
    | some edt => Except.ok (parseDT sdt, parseDT edt, false)
    | none => Except.error ()
  | none =>
    match evt.start.date with
    | some sd =>
      match evt.end_.date with
      | some ed => Except.ok (parseD sd, parseD ed, true)
      | none => Except.error ()
    | none => Except.ok (now, now, false)

/-! ### Aggregation (main loops of both scripts) -/

/-- A parsed calendar event: instants `s`, `e` (seconds), the all-day flag
from `parse_event_times`, and the explicit event colour id. -/
structure PEvent where
  s : Int
  e : Int
  isAllDay : Bool
  colorId : Option String
  deriving DecidableEq, Repr

/-- A calendar as the main loops see it: its default colour id
(`cal.get("colorId")`) and its fetched events. -/
structure Calendar where
  defaultColorId : Option String
  events : List PEvent
  deriving DecidableEq, Repr

/-- `defaultdict` accumulation `m[k] += v`: add to the existing entry, or
append a new one (Python dicts keep insertion order). -/
def addSeconds (m : List (String × Int)) (k : String) (v : Int) : List (String × Int) :=
  match m with
  | [] => [(k, v)]
  | (k', v') :: rest =>
    if k' = k then (k', v' + v) :: rest else (k', v') :: addSeconds rest k v

/-- Sum of all accumulated values over all keys. -/
def sumValues (m : List (String × Int)) : Int := (m.map Prod.snd).sum

/-- `cal_default_hex = calendar_colors.get(cal_default_id) if cal_default_id
else None` (simple_color_hours.main line 212). -/
def calDefaultHex (calendar_colors : List (String × Option String))
    (cal_default_id : Option String) : Option String :=
  if pyTruthy cal_default_id then (lookupA calendar_colors (cal_default_id.getD "")).getD none
  else none

/-- One iteration of the per-event loop of `simple_color_hours.main`
(lines 219–242): clip, skip non-overlapping, skip all-day unless counted,
resolve label, accumulate the clipped duration. -/
def stepSimple (wstart wend : Int) (count_all_day : Bool) (cal_default_hex : Option String)
    (event_colors : List (String × Option String)) (m : List (String × Int)) (evt : PEvent) :
    Except Unit (List (String × Int)) :=
  match clip evt.s evt.e wstart wend with
  | none => Except.ok m
  | some (cs, ce) =>
    if evt.isAllDay && !count_all_day then Except.ok m
    else
      match resolve_label evt.colorId cal_default_hex event_colors with
      | Except.error u => Except.error u
      | Except.ok label => Except.ok (addSeconds m label (ce - cs))

/-- The per-event loop of `simple_color_hours.main` over one calendar's
events, threading the accumulator. -/
def aggEventsSimple (wstart wend : Int) (cad : Bool) (cdh : Option String)
    (ec : List (String × Option String)) :
    List (String × Int) → List PEvent → Except Unit (List (String × Int))
  | m, [] => Except.ok m
  | m, evt :: rest =>
    match stepSimple wstart wend cad cdh ec m evt with
    | Except.error u => Except.error u
    | Except.ok m' => aggEventsSimple wstart wend cad cdh ec m' rest

/-- The outer per-calendar loop of `simple_color_hours.main`: all calendars
accumulate into the single shared `seconds_by_label` map. -/
def aggCalendarsSimple (wstart wend : Int) (cad : Bool)
    (ec cc : List (String × Option String)) :
    List (String × Int) → List Calendar → Except Unit (List (String × Int))
  | m, [] => Except.ok m
  | m, cal :: rest =>
    match aggEventsSimple wstart wend cad (calDefaultHex cc cal.defaultColorId) ec m cal.events with
    | Except.error u => Except.error u
    | Except.ok m' => aggCalendarsSimple wstart wend cad ec cc m' rest

/-- Python `a or b` on an `Optional[str]` left operand with a string
default. -/
def pyStrOr (a : Option String) (b : String) : String :=
  match a with
  | none => b
  | some s => if s = "" then b else s

/-- The accumulation key of `weekly_calendar_color_hours.main` line 245:
`evt.get("colorId") or cal_default_color_id or "default"`. -/
def weeklyKey (evtColorId calDefaultColorId : Option String) : String :=
  pyStrOr evtColorId (pyStrOr calDefaultColorId "default")

/-- One iteration of the per-event loop of
`weekly_calendar_color_hours.main` (lines 233–246). -/
def stepWeekly (wstart wend : Int) (count_all_day : Bool)
    (cal_default_color_id : Option String) (m : List (String × Int)) (evt : PEvent) :
    List (String × Int) :=
  match clamp_interval evt.s evt.e wstart wend with
  | none => m
  | some (cs, ce) =>
    if evt.isAllDay && !count_all_day then m
    else addSeconds m (weeklyKey evt.colorId cal_default_color_id) (ce - cs)

/-- The per-event loop of `weekly_calendar_color_hours.main` over one
calendar's events. -/
def aggEventsWeekly (wstart wend : Int) (cad : Bool) (cdid : Option String) :
    List (String × Int) → List PEvent → List (String × Int)
  | m, [] => m
  | m, evt :: rest => aggEventsWeekly wstart wend cad cdid (stepWeekly wstart wend cad cdid m evt) rest

/-- The outer per-calendar loop of `weekly_calendar_color_hours.main`:
all calendars accumulate into the single shared `seconds_by_color_id`. -/
def aggCalendarsWeekly (wstart wend : Int) (cad : Bool) :
    List (String × Int) → List Calendar → List (String × Int)
  | m, [] => m
  | m, cal :: rest =>
    aggCalendarsWeekly wstart wend cad (aggEventsWeekly wstart wend cad cal.defaultColorId m cal.events) rest

/-- The clipped duration an event is supposed to contribute: `0` when the
clip is empty or the event is all-day while all-day counting is off,
otherwise the length of the clipped interval. -/
def contrib (wstart wend : Int) (cad : Bool) (evt : PEvent) : Int :=
  match clip evt.s evt.e wstart wend with
  | none => 0
  | some (cs, ce) => if evt.isAllDay && !cad then 0 else ce - cs

/-! ### Report formatting (simple_color_hours.main lines 246–276,
weekly_calendar_color_hours.main lines 251–283)

Numeric values are carried as exact rationals; the final `printf`-style
string rendering of numbers is abstracted away, but the computed values
(rounded hours, percentages) and the row structure follow the source. -/

/-- Round half to even at integer precision (Python `round`'s tie rule). -/
def roundHalfEven (y : ℚ) : Int :=
  let f : Int := ⌊y⌋
  if y - f < 1 / 2 then f
  else if y - f > 1 / 2 then f + 1
  else if f % 2 = 0 then f else f + 1

/-- Python `round(x, 2)` on an exact rational. -/
def pyRound2 (x : ℚ) : ℚ := (roundHalfEven (x * 100) : ℚ) / 100

/-- One console line of the report body: the "No events found" message, a
section header, a per-key row (label/colour text, hours, percentage), or
the total line. -/
inductive RLine where
  | noEvents
  | header
  | row (label : String) (hours pct : ℚ)
  | totalLine (hours : ℚ)
  deriving DecidableEq, Repr

/-- Stable insertion into a descending-by-key list: an element inserted
from the left stays before later elements with an equal key, matching
Python's stable `sort(key=..., reverse=True)`. -/
def insertDescBy {α : Type} (key : α → ℚ) (x : α) : List α → List α
  | [] => [x]
  | y :: ys => if key x ≥ key y then x :: y :: ys else y :: insertDescBy key x ys

/-- Stable descending sort by a rational key. -/
def sortDescBy {α : Type} (key : α → ℚ) (l : List α) : List α :=
  l.foldr (insertDescBy key) []

/-- Embeds the report tail of `simple_color_hours.main`: empty map prints
the "No events found in this time window." message and, when a CSV path
was given, writes only the `label,hours` header; otherwise rows are
`(label, round(secs/3600, 2))` sorted descending, with percentages of the
total of rounded hours (`0` when the total is `0`), and the CSV gets a
`label,hours,percentage` header plus one row per key. -/
def report_simple (m : List (String × Int)) (csvRequested : Bool) :
    List RLine × Option (List String × List (String × ℚ × ℚ)) :=
  if m.isEmpty then
    ([RLine.noEvents], if csvRequested then some (["label", "hours"], []) else none)
  else
    let rows := sortDescBy Prod.snd (m.map (fun p => (p.1, pyRound2 ((p.2 : ℚ) / 3600))))
    let total := (rows.map Prod.snd).sum
    let pct := fun (h : ℚ) => if total > 0 then h / total * 100 else 0
    (RLine.header :: rows.map (fun r => RLine.row r.1 r.2 (pct r.2)) ++ [RLine.totalLine total],
     if csvRequested then
       some (["label", "hours", "percentage"], rows.map (fun r => (r.1, r.2, pct r.2)))
     else none)

/-- Python `str` interpolation of an `Optional[str]` into an f-string. -/
def pyStr : Option String → String
  | none => "None"
  | some s => s

/-- Embeds `weekly_calendar_color_hours.color_label`: event-colour table
first, then calendar-colour table (rendered with "default "), else
`"(n/a)"`. -/
def color_label (event_colors calendar_colors : List (String × Option String))
    (cid : String) : String :=
  match lookupA event_colors cid with
  | some v => cid ++ " (" ++ pyStr v ++ ")"
  | none =>
    match lookupA calendar_colors cid with
    | some v => cid ++ " (default " ++ pyStr v ++ ")"
    | none => cid ++ " (n/a)"

/-- A row of the weekly report/CSV: colour id, display label, rounded
hours. -/
structure WRow where
  color_id : String
  color : String
  hours : ℚ
  deriving DecidableEq, Repr

/-- Embeds the report tail of `weekly_calendar_color_hours.main`: rows are
built from every accumulated key with `color_label` and rounded hours and
sorted descending; the console prints "No events found in this window."
when there are no rows, else the rows and the total; the CSV is always
written with the `color_id,color,hours` header and one row per key. -/
def report_weekly (m : List (String × Int)) (ec cc : List (String × Option String)) :
    List RLine × (List String × List WRow) :=
  let rows := sortDescBy WRow.hours
    (m.map (fun p => ⟨p.1, color_label ec cc p.1, pyRound2 ((p.2 : ℚ) / 3600)⟩))
  let console :=
    if rows.isEmpty then [RLine.noEvents]
    else
      let total := (rows.map WRow.hours).sum
      rows.map (fun r => RLine.row r.color r.hours (if total > 0 then r.hours / total * 100 else 0))
        ++ [RLine.totalLine total]
  (console, (["color_id", "color", "hours"], rows))

end Timetracker

namespace Timetracker

example : get_last_week_window ⟨0, 0⟩ = (-1, 6) := by decide
example : last_sun_to_sat ⟨0, 0⟩ = (-8, -1) := by decide
example : get_last_week_window ⟨6, 3600⟩ = (-1, 6) := by decide
example : last_sun_to_sat ⟨6, 3600⟩ = (-1, 6) := by decide
example : clip 1 5 0 3 = some (1, 3) := by decide
example : clip 2 2 0 9 = none := by decide

example : pyIntHex "ff" = some 255 := by decide
example : pyIntHex "" = none := by decide
example : pyIntHex "5" = some 5 := by decide
example : pyIntHex "0x" = none := by decide
example : pyIntHex " -f " = some (-15) := by decide
example : pyIntHex "zz" = none := by decide
example : hex_to_rgb "#0b8043" = some (11, 128, 67) := by decide
example : hex_to_rgb "12345" = some (18, 52, 5) := by decide
example : hex_to_rgb "zz0000" = none := by decide
example : hex_to_rgb "12" = none := by decide
example : resolve_label (some "8") (some "#ffffff") [] = Except.ok "Sleep" := rfl
example : resolve_label none (some "12345") [("8", some "16161d")] = Except.ok "Sleep" := rfl
example : resolve_label none (some "zzz") [("8", some "16161d")] = Except.ok "Miscellaneous" := rfl
example : resolve_label none none [] = Except.ok "Miscellaneous" := rfl

/-! ### Shared helper lemmas -/

/-- `clamp_interval` and `clip` compute the same function. -/
theorem clamp_interval_eq_clip (a b lo hi : Int) :
    clamp_interval a b lo hi = clip a b lo hi := rfl

/-- Closed form of `get_last_week_window` with the `let`s expanded. -/
theorem get_last_week_window_eq (now : LocalDT) :
    get_last_week_window now =
      (if now.day % 7 = 6 then now.day - 7
         else now.day - (if now.day % 7 = 6 then 0 else (now.day % 7 + 1) % 7),
       (if now.day % 7 = 6 then now.day - 7
         else now.day - (if now.day % 7 = 6 then 0 else (now.day % 7 + 1) % 7)) + 7) := by
  rfl

/-- Closed form of `last_sun_to_sat` with the `let`s expanded. -/
theorem last_sun_to_sat_eq (now : LocalDT) :
    last_sun_to_sat now =
      (now.day - (now.day % 7 + 1) % 7 - 7, now.day - (now.day % 7 + 1) % 7) := by
  rfl

/-- `addSeconds` adds exactly `v` to the total over all keys. -/
theorem sumValues_addSeconds (m : List (String × Int)) (k : String) (v : Int) :
    sumValues (addSeconds m k v) = sumValues m + v := by
  induction m with
  | nil => simp [addSeconds, sumValues]
  | cons p rest ih =>
    obtain ⟨k', v'⟩ := p
    by_cases h : k' = k <;>
      simp [addSeconds, h, sumValues, List.map_cons, List.sum_cons] at * <;>
      omega

/-! ### Claim theorems -/

/-- C2: for every timezone-aware `now`, both window resolvers return a
window with `start < end`, `start` a Sunday midnight (day ≡ 6 mod 7,
Monday = 0 convention), `end = start + 7` calendar days, and the result is
independent of the time of day of `now`. -/
theorem C2_window_invariant (now : LocalDT) :
    ((get_last_week_window now).1 < (get_last_week_window now).2 ∧
     (get_last_week_window now).1 % 7 = 6 ∧
     (get_last_week_window now).2 = (get_last_week_window now).1 + 7) ∧
    ((last_sun_to_sat now).1 < (last_sun_to_sat now).2 ∧
     (last_sun_to_sat now).1 % 7 = 6 ∧
     (last_sun_to_sat now).2 = (last_sun_to_sat now).1 + 7) ∧
    (∀ sec : Nat, get_last_week_window ⟨now.day, sec⟩ = get_last_week_window now ∧
      last_sun_to_sat ⟨now.day, sec⟩ = last_sun_to_sat now) := by
  refine ⟨?_, ?_, fun sec => ⟨rfl, rfl⟩⟩
  · rw [get_last_week_window_eq]
    split_ifs <;> exact ⟨by omega, by omega, by omega⟩
  · rw [last_sun_to_sat_eq]
    exact ⟨by omega, by omega, by omega⟩

/-- C1 (counterexample): on a Monday (day 0 at midnight) the two script
variants return different windows — `get_last_week_window` gives the week
starting the most recent past Sunday, `last_sun_to_sat` the week before it,
so the claim that both variants return the same window is false. -/
theorem C1_variants_disagree :
    get_last_week_window ⟨0, 0⟩ = (-1, 6) ∧ last_sun_to_sat ⟨0, 0⟩ = (-8, -1) ∧
    get_last_week_window ⟨0, 0⟩ ≠ last_sun_to_sat ⟨0, 0⟩ := by decide

/-- C1 (amended): `get_last_week_window` returns exactly the spec-formula
window for every `now`, and on non-Sunday days its start is the most recent
past Sunday's midnight; `last_sun_to_sat` agrees with it when today is
Sunday, but on every non-Sunday day returns the window one week earlier
(its end is the spec formula's start). -/
theorem C1_week_window_amended (now : LocalDT) :
    get_last_week_window now = specWeekWindow now ∧
    (now.day % 7 = 6 → last_sun_to_sat now = specWeekWindow now) ∧
    (now.day % 7 ≠ 6 →
      (specWeekWindow now).1 % 7 = 6 ∧
      now.day - 7 < (specWeekWindow now).1 ∧ (specWeekWindow now).1 < now.day ∧
      last_sun_to_sat now = ((specWeekWindow now).1 - 7, (specWeekWindow now).1)) := by
  have hspec : specWeekWindow now =
      (if (now.day % 7 + 1) % 7 = 0 then now.day - 7 else now.day - (now.day % 7 + 1) % 7,
       (if (now.day % 7 + 1) % 7 = 0 then now.day - 7 else now.day - (now.day % 7 + 1) % 7) + 7) := by
    rfl
  refine ⟨?_, fun h => ?_, fun h => ?_⟩
  · rw [get_last_week_window_eq, hspec]
    split_ifs <;> simp_all <;> omega
  · rw [last_sun_to_sat_eq, hspec]
    split_ifs <;> simp_all
  · rw [last_sun_to_sat_eq, hspec]
    split_ifs <;> simp_all <;> omega

/-- Witness for `C1_week_window_amended` at the concrete non-Sunday
`now = ⟨3, 0⟩` (a Thursday midnight). -/
theorem C1_week_window_amended_witness :
    get_last_week_window ⟨3, 0⟩ = specWeekWindow ⟨3, 0⟩ ∧
    last_sun_to_sat ⟨3, 0⟩ = ((specWeekWindow ⟨3, 0⟩).1 - 7, (specWeekWindow ⟨3, 0⟩).1) :=
  ⟨(C1_week_window_amended ⟨3, 0⟩).1,
   ((C1_week_window_amended ⟨3, 0⟩).2.2 (by decide)).2.2.2⟩

/-- C3: the Interval Clipper returns `[max(s,start), min(e,end))` exactly
when that pair is a nonempty interval and `none` exactly when the clipped
start is ≥ the clipped end; zero-length and fully-outside inputs give
`none`; both scripts' clippers are the same pure function. -/
theorem C3_clip_contract (a b lo hi : Int) :
    clamp_interval a b lo hi = clip a b lo hi ∧
    (max a lo < min b hi → clip a b lo hi = some (max a lo, min b hi)) ∧
    (min b hi ≤ max a lo ↔ clip a b lo hi = none) ∧
    (a = b → clip a b lo hi = none) ∧
    (b ≤ lo ∨ hi ≤ a → clip a b lo hi = none) := by
  refine ⟨clamp_interval_eq_clip a b lo hi, ?_, ?_, ?_, ?_⟩ <;>
    simp only [clip, ge_iff_le] <;> intros <;> split_ifs <;>
    simp_all <;> omega

/-- Witness for `C3_clip_contract`: overlap, zero-length and fully-outside
cases at concrete inputs. -/
theorem C3_clip_contract_witness :
    clip 1 5 0 3 = some (1, 3) ∧ clip 2 2 0 9 = none ∧ clip 10 12 0 5 = none :=
  ⟨by have h := (C3_clip_contract 1 5 0 3).2.1 (by decide); simpa using h,
   (C3_clip_contract 2 2 0 9).2.2.2.1 rfl,
   (C3_clip_contract 10 12 0 5).2.2.2.2 (Or.inr (by decide))⟩

/-- C8: the clipper is symmetric in its two interval arguments, and
idempotent: re-clipping a clip result against the same window returns it
unchanged. -/
theorem C8_clip_symm_idem (a b lo hi : Int) :
    clip a b lo hi = clip lo hi a b ∧
    (∀ s e : Int, clip a b lo hi = some (s, e) → clip s e lo hi = some (s, e)) := by
  constructor
  · simp only [clip, max_comm a lo, min_comm b hi]
  · intro s e h
    simp only [clip] at h
    split_ifs at h with hc
    simp only [Option.some.injEq, Prod.mk.injEq] at h
    obtain ⟨hs, he⟩ := h
    subst hs; subst he
    simp only [clip]
    rw [max_eq_left (le_max_right a lo), min_eq_left (min_le_right b hi), if_neg hc]

/-- Witness for `C8_clip_symm_idem` at a concrete input. -/
theorem C8_clip_symm_idem_witness :
    clip 1 5 0 3 = clip 0 3 1 5 ∧ clip 1 3 0 3 = some (1, 3) :=
  ⟨(C8_clip_symm_idem 1 5 0 3).1,
   (C8_clip_symm_idem 1 5 0 3).2 1 3 (by decide)⟩

/-- C5: an event carrying explicit colour id "8" always resolves to
"Sleep", for every calendar default hex and every event-colour table —
the fallback path is never consulted. -/
theorem C5_explicit_sleep (cal_default_hex : Option String)
    (event_colors : List (String × Option String)) :
    resolve_label (some "8") cal_default_hex event_colors = Except.ok "Sleep" := rfl

/-- C6 (counterexample): the calendar default hex "12345" is not a
6-hex-digit colour (5 digits), yet the resolver does not fall back to
"Miscellaneous": Python parses the 2-character slices "12", "34", "5"
successfully, so the nearest-colour path runs and returns "Sleep" for a
table whose only entry is Sleep's hex. -/
theorem C6_malformed_hex_cex :
    resolve_label none (some "12345") [("8", some "16161d")] = Except.ok "Sleep" ∧
    "Sleep" ≠ "Miscellaneous" :=
  ⟨rfl, by decide⟩

/-- C6 (amended): whenever the event's explicit colour id does not pick a
label from the LabelMap and the calendar default hex fails hex parsing
(`hex_to_rgb` raises, modelled as `none` — e.g. non-hex characters or an
empty slice), the resolver returns "Miscellaneous" and no error is raised;
but a hex string malformed per the spec whose 2-character slices all still
parse (e.g. 5 hex digits) instead takes the nearest-colour path. -/
theorem C6_malformed_hex_amended (cid cal_default_hex : Option String)
    (event_colors : List (String × Option String))
    (hcid : (pyTruthy cid && (lookupA CUSTOM_COLOR_NAMES (cid.getD "")).isSome) = false)
    (hhex : hex_to_rgb (cal_default_hex.getD "") = none) :
    resolve_label cid cal_default_hex event_colors = Except.ok "Miscellaneous" := by
  simp only [resolve_label, hcid, Bool.false_eq_true, if_false]
  split_ifs with h
  · simp only [nearest_event_color_id, hhex]
  · rfl

/-- Witness for `C6_malformed_hex_amended`: an uncoloured event on a
calendar whose default hex is the unparseable "zz". -/
theorem C6_malformed_hex_amended_witness :
    resolve_label none (some "zz") [("8", some "16161d")] = Except.ok "Miscellaneous" :=
  C6_malformed_hex_amended none (some "zz") [("8", some "16161d")] (by decide) (by decide)

/-- C7 (counterexample): in the simple variant an event whose `start`
carries neither `dateTime` nor `date` makes `parse_event_times` raise
`KeyError` (the claim says parsing does not fail in both variants). -/
theorem C7_simple_raises :
    parse_event_times_simple (fun _ => 0) (fun _ => 0)
      ⟨⟨none, none⟩, ⟨none, none⟩, none⟩ = Except.error () := rfl

/-- C7 (amended): for an event whose `start` has neither `dateTime` nor
`date`, the weekly variant's `parse_event_times` returns the zero-length
non-all-day interval `(now, now)`, which contributes exactly 0 to the
aggregation (the zero-length interval never overlaps the window, so the
per-event loop leaves the accumulator unchanged); the simple variant's
`parse_event_times` instead raises `KeyError`. -/
theorem C7_fallback_amended (parseDT parseD : String → Int) (now : Int) (evt : RawEvent)
    (h1 : evt.start.dateTime = none) (h2 : evt.start.date = none) :
    parse_event_times_weekly parseDT parseD now evt = Except.ok (now, now, false) ∧
    (∀ wstart wend : Int, ∀ cad : Bool, ∀ cdid : Option String, ∀ m : List (String × Int),
      stepWeekly wstart wend cad cdid m ⟨now, now, false, evt.colorId⟩ = m ∧
      contrib wstart wend cad ⟨now, now, false, evt.colorId⟩ = 0) ∧
    parse_event_times_simple parseDT parseD evt = Except.error () := by
  have hclip : ∀ wstart wend : Int, clip now now wstart wend = none := by
    intro wstart wend
    simp only [clip, ge_iff_le]
    rw [if_pos (by omega)]
  refine ⟨?_, fun wstart wend cad cdid m => ⟨?_, ?_⟩, ?_⟩
  · simp only [parse_event_times_weekly, h1, h2]
  · simp only [stepWeekly, clamp_interval_eq_clip, hclip]
  · simp only [contrib, hclip]
  · simp only [parse_event_times_simple, h1, h2]

/-- Witness for `C7_fallback_amended` at a concrete malformed event. -/
theorem C7_fallback_amended_witness :
    parse_event_times_weekly (fun _ => 0) (fun _ => 0) 99
      ⟨⟨none, none⟩, ⟨none, none⟩, some "7"⟩ = Except.ok (99, 99, false) ∧
    stepWeekly 0 604800 true none [("x", 5)] ⟨99, 99, false, some "7"⟩ = [("x", 5)] ∧
    parse_event_times_simple (fun _ => 0) (fun _ => 0)
      ⟨⟨none, none⟩, ⟨none, none⟩, some "7"⟩ = Except.error () := by
  have h := C7_fallback_amended (fun _ => 0) (fun _ => 0) 99
    ⟨⟨none, none⟩, ⟨none, none⟩, some "7"⟩ rfl rfl
  exact ⟨h.1, (h.2.1 0 604800 true none [("x", 5)]).1, h.2.2⟩

/-- C9: with an empty aggregation result neither formatter fails: the
console output is exactly the "No events found" message, and the CSV —
when requested (simple) or always (weekly) — consists of the header row
and zero data rows. -/
theorem C9_empty_report (ec cc : List (String × Option String)) :
    report_simple [] true = ([RLine.noEvents], some (["label", "hours"], [])) ∧
    report_simple [] false = ([RLine.noEvents], none) ∧
    report_weekly [] ec cc = ([RLine.noEvents], (["color_id", "color", "hours"], [])) :=
  ⟨rfl, rfl, rfl⟩

/-- C10: an event with absent-or-falsy explicit colour id on a calendar
with absent-or-falsy default colour id is keyed under the literal
`"default"`, which — being a key of neither colour table — is displayed
as `"default (n/a)"`. -/
theorem C10_default_key (ecid cdid : Option String)
    (h1 : pyTruthy ecid = false) (h2 : pyTruthy cdid = false) :
    weeklyKey ecid cdid = "default" ∧
    (∀ ec cc : List (String × Option String),
      lookupA ec "default" = none → lookupA cc "default" = none →
      color_label ec cc "default" = "default (n/a)") := by
  constructor
  · cases ecid with
    | none =>
      cases cdid with
      | none => rfl
      | some s =>
        simp only [pyTruthy, decide_eq_false_iff_not, ne_eq, not_not] at h2
        simp [weeklyKey, pyStrOr, h2]
    | some s =>
      simp only [pyTruthy, decide_eq_false_iff_not, ne_eq, not_not] at h1
      cases cdid with
      | none => simp [weeklyKey, pyStrOr, h1]
      | some t =>
        simp only [pyTruthy, decide_eq_false_iff_not, ne_eq, not_not] at h2
        simp [weeklyKey, pyStrOr, h1, h2]
  · intro ec cc hec hcc
    simp only [color_label, hec, hcc]
    rfl

/-- One weekly-variant event step changes the total over all keys by
exactly the event's clipped-and-filtered contribution. -/
theorem sumValues_stepWeekly (ws we : Int) (cad : Bool) (cdid : Option String)
    (m : List (String × Int)) (evt : PEvent) :
    sumValues (stepWeekly ws we cad cdid m evt) = sumValues m + contrib ws we cad evt := by
  simp only [stepWeekly, contrib, clamp_interval_eq_clip]
  cases h : clip evt.s evt.e ws we with
  | none => simp
  | some p =>
    obtain ⟨cs, ce⟩ := p
    by_cases had : evt.isAllDay && !cad <;> simp [had, sumValues_addSeconds]

/-- The weekly per-event loop adds the sum of the events' contributions. -/
theorem sumValues_aggEventsWeekly (ws we : Int) (cad : Bool) (cdid : Option String)
    (evts : List PEvent) :
    ∀ m : List (String × Int),
      sumValues (aggEventsWeekly ws we cad cdid m evts) =
        sumValues m + (evts.map (contrib ws we cad)).sum := by
  induction evts with
  | nil => intro m; simp [aggEventsWeekly]
  | cons e rest ih =>
    intro m
    simp only [aggEventsWeekly, ih, sumValues_stepWeekly, List.map_cons, List.sum_cons]
    omega

/-- The weekly per-calendar loop adds the double sum of contributions. -/
theorem sumValues_aggCalendarsWeekly (ws we : Int) (cad : Bool) (cals : List Calendar) :
    ∀ m : List (String × Int),
      sumValues (aggCalendarsWeekly ws we cad m cals) =
        sumValues m + (cals.map (fun cal => (cal.events.map (contrib ws we cad)).sum)).sum := by
  induction cals with
  | nil => intro m; simp [aggCalendarsWeekly]
  | cons cal rest ih =>
    intro m
    simp only [aggCalendarsWeekly, ih, sumValues_aggEventsWeekly, List.map_cons, List.sum_cons]
    omega

/-- One simple-variant event step that completes without an exception
changes the total by exactly the event's contribution. -/
theorem sumValues_stepSimple (ws we : Int) (cad : Bool) (cdh : Option String)
    (ec : List (String × Option String)) (m m' : List (String × Int)) (evt : PEvent)
    (h : stepSimple ws we cad cdh ec m evt = Except.ok m') :
    sumValues m' = sumValues m + contrib ws we cad evt := by
  simp only [stepSimple, contrib] at h ⊢
  cases hc : clip evt.s evt.e ws we with
  | none =>
    simp only [hc, Except.ok.injEq] at h
    subst h
    simp
  | some p =>
    obtain ⟨cs, ce⟩ := p
    simp only [hc] at h
    by_cases had : evt.isAllDay && !cad
    · simp only [had, if_true, Except.ok.injEq] at h
      subst h
      simp [had]
    · simp only [had, if_false, Bool.false_eq_true] at h
      cases hr : resolve_label evt.colorId cdh ec with
      | error u => rw [hr] at h; exact Except.noConfusion h
      | ok label =>
        rw [hr] at h
        simp only [Except.ok.injEq] at h
        subst h
        simp [had, sumValues_addSeconds]

/-- The simple per-event loop, when it completes without an exception,
adds the sum of the events' contributions. -/
theorem sumValues_aggEventsSimple (ws we : Int) (cad : Bool) (cdh : Option String)
    (ec : List (String × Option String)) (evts : List PEvent) :
    ∀ m m' : List (String × Int),
      aggEventsSimple ws we cad cdh ec m evts = Except.ok m' →
      sumValues m' = sumValues m + (evts.map (contrib ws we cad)).sum := by
  induction evts with
  | nil =>
    intro m m' h
    simp only [aggEventsSimple, Except.ok.injEq] at h
    subst h
    simp
  | cons e rest ih =>
    intro m m' h
    simp only [aggEventsSimple] at h
    cases hs : stepSimple ws we cad cdh ec m e with
    | error u => rw [hs] at h; exact Except.noConfusion h
    | ok m1 =>
      rw [hs] at h
      have h1 := sumValues_stepSimple ws we cad cdh ec m m1 e hs
      have h2 := ih m1 m' h
      simp only [List.map_cons, List.sum_cons]
      omega

/-- The simple per-calendar loop, when it completes without an exception,
adds the double sum of contributions. -/
theorem sumValues_aggCalendarsSimple (ws we : Int) (cad : Bool)
    (ec cc : List (String × Option String)) (cals : List Calendar) :
    ∀ m m' : List (String × Int),
      aggCalendarsSimple ws we cad ec cc m cals = Except.ok m' →
      sumValues m' = sumValues m +
        (cals.map (fun cal => (cal.events.map (contrib ws we cad)).sum)).sum := by
  induction cals with
  | nil =>
    intro m m' h
    simp only [aggCalendarsSimple, Except.ok.injEq] at h
    subst h
    simp
  | cons cal rest ih =>
    intro m m' h
    simp only [aggCalendarsSimple] at h
    cases hs : aggEventsSimple ws we cad (calDefaultHex cc cal.defaultColorId) ec m cal.events with
    | error u => rw [hs] at h; exact Except.noConfusion h
    | ok m1 =>
      rw [hs] at h
      have h1 := sumValues_aggEventsSimple ws we cad (calDefaultHex cc cal.defaultColorId)
        ec cal.events m m1 hs
      have h2 := ih m1 m' h
      simp only [List.map_cons, List.sum_cons]
      omega

/-- C4: starting from the empty accumulator, the total over all keys of
the final aggregation equals the sum, per calendar and per event, of the
clipped durations of exactly the events that overlap the window and pass
the all-day filter (`contrib` is `0` for the others) — in the weekly
variant unconditionally, and in the simple variant whenever the run
completes without an exception.  A single event listed on two calendars
appears twice on the right-hand side, i.e. is counted twice. -/
theorem C4_aggregation_conservation (ws we : Int) (cad : Bool)
    (ec cc : List (String × Option String)) (cals : List Calendar) :
    sumValues (aggCalendarsWeekly ws we cad [] cals) =
      (cals.map (fun cal => (cal.events.map (contrib ws we cad)).sum)).sum ∧
    ∀ m : List (String × Int),
      aggCalendarsSimple ws we cad ec cc [] cals = Except.ok m →
      sumValues m =
        (cals.map (fun cal => (cal.events.map (contrib ws we cad)).sum)).sum := by
  constructor
  · have h := sumValues_aggCalendarsWeekly ws we cad cals []
    simpa [sumValues] using h
  · intro m hm
    have h := sumValues_aggCalendarsSimple ws we cad ec cc cals [] m hm
    simpa [sumValues] using h

/-- Witness for `C4_aggregation_conservation`: the same Sleep event on two
calendars is counted twice (10 + 10 seconds), and both variants' totals
equal the double sum of contributions. -/
theorem C4_aggregation_conservation_witness :
    sumValues (aggCalendarsWeekly 0 100 true []
        [⟨none, [⟨0, 10, false, some "8"⟩]⟩, ⟨none, [⟨0, 10, false, some "8"⟩]⟩]) =
      (([⟨none, [⟨0, 10, false, some "8"⟩]⟩, ⟨none, [⟨0, 10, false, some "8"⟩]⟩] :
          List Calendar).map
        (fun cal => (cal.events.map (contrib 0 100 true)).sum)).sum ∧
    sumValues [("Sleep", 20)] =
      (([⟨none, [⟨0, 10, false, some "8"⟩]⟩, ⟨none, [⟨0, 10, false, some "8"⟩]⟩] :
          List Calendar).map
        (fun cal => (cal.events.map (contrib 0 100 true)).sum)).sum :=
  ⟨(C4_aggregation_conservation 0 100 true [] []
      [⟨none, [⟨0, 10, false, some "8"⟩]⟩, ⟨none, [⟨0, 10, false, some "8"⟩]⟩]).1,
   (C4_aggregation_conservation 0 100 true [] []
      [⟨none, [⟨0, 10, false, some "8"⟩]⟩, ⟨none, [⟨0, 10, false, some "8"⟩]⟩]).2
     [("Sleep", 20)] rfl⟩

/-- Witness for `C10_default_key`: empty-string explicit id, absent
calendar default, and the first entries of the real colour tables. -/
theorem C10_default_key_witness :
    weeklyKey (some "") none = "default" ∧
    color_label [("1", some "#a4bdfc")] [("1", some "#ac725e")] "default" = "default (n/a)" := by
  have h := C10_default_key (some "") none (by decide) (by decide)
  exact ⟨h.1, h.2 [("1", some "#a4bdfc")] [("1", some "#ac725e")] (by decide) (by decide)⟩

end Timetracker
